import Mathlib

/-
Shallow embedding of the chat server in src/server.py.

Modelling conventions:
* A connected client is identified by a natural-number id (Python compares
  Client objects by identity; distinct live clients are distinct objects, which
  we model as distinct ids).
* The shared mutable server state is a `World`:
  - `registry`  models `Server.clients`, the dict mapping Client -> name,
    kept as an insertion-ordered association list with unique ids;
  - `log`       records every successful `Client.send` as a pair
    (recipient id, payload string) in the order the sends happen; the payload
    is the `msg` argument of `Client.send`, and the exact bytes put on the
    wire for a payload are computed by the pure function `Client.sendBytes`;
  - `failing`   is the set of ids whose underlying `socket.send` raises a
    broken-pipe error (errno 32); a send to such a client raises and
    delivers nothing;
  - `closedSocks` records each `socket.shutdown`/`close` performed by
    `Client.kill`, in order (so multiplicity is visible);
  - `serverOpen` models the listening socket of the `Server`.
* A client connection delivers a script of events (`Ev`): either a decoded
  line handed to `socket.recv`, or a socket error with its errno raised by
  the blocking recv call.  An exhausted script means the session blocks
  forever on recv, reported as `Outcome.blocked`.
* Python exceptions are modelled by threading an `Option Err` through every
  operation; the partial state reached before the raise is kept, exactly as
  Python keeps side effects performed before an exception.  `Err.sock n`
  is a `socket.error` with errno `n`; `Err.key` is the `KeyError` raised by
  `del` on an absent dict key (not a `socket.error`, hence never caught by
  `Client.handle`).
* Python string helpers are re-implemented over the character list of a
  `String` so that they evaluate by kernel reduction: `pyStrip` is
  `str.strip()`, `strContains hay needle` is Python `needle in hay`.
-/

/-- `str.strip()`: drop whitespace from both ends. -/
def pyStrip (s : String) : String :=
  ⟨((s.data.dropWhile Char.isWhitespace).reverse.dropWhile Char.isWhitespace).reverse⟩

/-- Bool test: is `needle` a contiguous infix of the character list? -/
def infixOfCharList (needle : List Char) : List Char → Bool
  | [] => needle.isEmpty
  | c :: cs => needle.isPrefixOf (c :: cs) || infixOfCharList needle cs

/-- Python `needle in hay` for strings. -/
def strContains (hay needle : String) : Bool :=
  infixOfCharList needle.data hay.data

/-- Removes ANSI escape sequences (`ESC ... m`) from a string, keeping the
visible text. -/
def stripAnsiAux : List Char → Bool → List Char
  | [], _ => []
  | c :: cs, true => if c = 'm' then stripAnsiAux cs false else stripAnsiAux cs true
  | c :: cs, false => if c = '\x1b' then stripAnsiAux cs true else c :: stripAnsiAux cs false

/-- Visible text of a string once ANSI color sequences are removed. -/
def stripAnsi (s : String) : String :=
  ⟨stripAnsiAux s.data false⟩

/-- An event observed by a blocking `socket.recv` on one connection:
a decoded line, or a raised socket error with its errno. -/
inductive Ev
  | line (s : String)
  | errE (n : Nat)
deriving DecidableEq, Repr

/-- A Python exception in flight: a `socket.error` with errno, or the
`KeyError` of `del` on an absent key. -/
inductive Err
  | sock (n : Nat)
  | key
deriving DecidableEq, Repr

/-- How a handling routine ends: normal return, blocked forever on recv
(event script exhausted), or an uncaught exception. -/
inductive Outcome
  | normal
  | blocked
  | raised (e : Err)
deriving DecidableEq, Repr

/-- Result of one `Client.recv` call. -/
inductive RecvRes
  | got (m : String)
  | rBlocked
  | rErr (e : Err)
deriving DecidableEq, Repr

/-- Per-session state: connection id, display name (`self.name`), and the
`self.chat` flag. -/
structure Sess where
  id : Nat
  name : String
  chat : Bool
deriving DecidableEq, Repr

/-- The shared server state (see the conventions above). -/
structure World where
  registry : List (Nat × String)
  log : List (Nat × String)
  failing : List Nat
  closedSocks : List Nat
  serverOpen : Bool
deriving DecidableEq, Repr

/-- `Client.send` (server.py 17-26), wire level: the exact bytes sent for a
payload `msg`, depending on the `self.chat` flag.  `clear = "\x1b[1K\r"`
erases the current line and resets the cursor; in chat mode a non-empty
payload gets a newline and every send ends with the colored `>` prompt. -/
def Client.sendBytes (chat : Bool) (msg : String) : String :=
  if chat = false then
    "\x1b[1K\r" ++ msg
  else
    "\x1b[1K\r" ++ (if msg = "" then msg else msg ++ "\n") ++ "\x1b[33m>\x1b[0m "

/-- `Client.send` (server.py 17-26), effect level: logs the payload for the
recipient, or raises broken-pipe (errno 32) when the recipient socket fails. -/
def Client.send (w : World) (i : Nat) (payload : String) : World × Option Err :=
  if i ∈ w.failing then (w, some (Err.sock 32))
  else ({ w with log := w.log ++ [(i, payload)] }, none)

/-- The recipients actually reached by one registry iteration of
`Server.broadcast` when no send fails: every registered entry except the
excluded sender, in registry order, paired with the message. -/
def delivered : List (Nat × String) → Option Nat → String → List (Nat × String)
  | [], _, _ => []
  | p :: rest, snd, m =>
    if some p.1 = snd then delivered rest snd m
    else (p.1, m) :: delivered rest snd m

/-- The loop body of `Server.broadcast` (server.py 169-174) over a snapshot
of the registry: skip the sender, send to everyone else, aborting (and
propagating the exception) at the first failed send. -/
def broadcastList : List (Nat × String) → String → Option Nat → World → World × Option Err
  | [], _, _, w => (w, none)
  | p :: rest, m, snd, w =>
    if some p.1 = snd then broadcastList rest m snd w
    else
      match Client.send w p.1 m with
      | (w1, none) => broadcastList rest m snd w1
      | (w1, some e) => (w1, some e)

/-- `Server.broadcast` (server.py 169-174): iterate over `self.clients`,
skipping `sender`, sending `message` to each. -/
def Server.broadcast (w : World) (message : String) (sender : Option Nat) : World × Option Err :=
  broadcastList w.registry message sender w

/-- Python `del self.parent.clients[self]` (server.py 78): removes the entry
if the key is present, raises `KeyError` otherwise. -/
def registryDel (reg : List (Nat × String)) (i : Nat) : Except Unit (List (Nat × String)) :=
  if reg.any (fun p => p.1 == i) then Except.ok (reg.eraseP (fun p => p.1 == i))
  else Except.error ()

/-- `Client.kill` (server.py 66-78): shutdown and close the socket (errors
for an already-broken connection are swallowed, so closing always succeeds
here), then, when `delete` is set, `del self.parent.clients[self]`. -/
def Client.kill (w : World) (s : Sess) (delete : Bool) : World × Option Err :=
  let w1 := { w with closedSocks := w.closedSocks ++ [s.id] }
  if delete then
    match registryDel w1.registry s.id with
    | Except.ok r => ({ w1 with registry := r }, none)
    | Except.error _ => (w1, some Err.key)
  else (w1, none)

/-- The farewell line sent by `Client.leave` when the peer is not gone. -/
def byeMsg : String := "You will be disconnected. Bye!"

/-- The departure announcement broadcast by `Client.leave` on the
delete path (server.py 63). -/
def leftMsg (name : String) : String :=
  "\x1b[32m" ++ name ++ " has left the chat\x1b[0m"

/-- `Client.leave` (server.py 56-64): clear `self.chat`, send the farewell
unless the peer is `gone`, kill the socket (deleting the registry entry when
`delete`), and on the delete path broadcast the departure announcement. -/
def Client.leave (w : World) (s : Sess) (delete : Bool) (gone : Bool) :
    (World × Sess) × Option Err :=
  let s1 := { s with chat := false }
  match (if gone then (w, none) else Client.send w s.id byeMsg) with
  | (w1, some e) => ((w1, s1), some e)
  | (w1, none) =>
    match Client.kill w1 s1 delete with
    | (w2, some e) => ((w2, s1), some e)
    | (w2, none) =>
      if delete then
        match Server.broadcast w2 (leftMsg s.name) none with
        | (w3, some e) => ((w3, s1), some e)
        | (w3, none) => ((w3, s1), none)
      else ((w2, s1), none)

/-- The chat payload built by `Client.msg` (server.py 38-39): colored name,
colon, and the message with surrounding whitespace stripped. -/
def Client.msgPayload (name m : String) : String :=
  "\x1b[36m" ++ name ++ "\x1b[0m: " ++ pyStrip m

/-- `Client.msg` (server.py 35-40): broadcast the chat payload to everyone
but the author. -/
def Client.msg (w : World) (s : Sess) (m : String) : World × Option Err :=
  Server.broadcast w (Client.msgPayload s.name m) (some s.id)

/-- `Client.recv` (server.py 28-33): block for the next event; a socket
error raises; on data, when `self.chat` is set, immediately send the empty
payload back to the same client (the prompt refresh) before returning the
decoded string. -/
def Client.recv (evs : List Ev) (s : Sess) (w : World) : World × List Ev × RecvRes :=
  match evs with
  | [] => (w, [], RecvRes.rBlocked)
  | Ev.errE n :: rest => (w, rest, RecvRes.rErr (Err.sock n))
  | Ev.line m :: rest =>
    if s.chat then
      match Client.send w s.id "" with
      | (w1, none) => (w1, rest, RecvRes.got m)
      | (w1, some e) => (w1, rest, RecvRes.rErr e)
    else (w, rest, RecvRes.got m)

/-- The `while True` loop of `Client.handler` (server.py 86-94): recv a
line; a line containing `:quit` leaves (voluntary path) and breaks; an empty
line or bare newline is ignored; anything else becomes a chat message.
The returned event list is the unconsumed tail of the connection script. -/
def Client.handlerLoop : List Ev → Sess → World → World × Sess × List Ev × Outcome
  | [], s, w => (w, s, [], Outcome.blocked)
  | ev :: rest, s, w =>
    match Client.recv (ev :: rest) s w with
    | (w1, _, RecvRes.rBlocked) => (w1, s, rest, Outcome.blocked)
    | (w1, _, RecvRes.rErr e) => (w1, s, rest, Outcome.raised e)
    | (w1, _, RecvRes.got m) =>
      if strContains m ":quit" then
        match Client.leave w1 s true false with
        | ((w2, s2), some e) => (w2, s2, rest, Outcome.raised e)
        | ((w2, s2), none) => (w2, s2, rest, Outcome.normal)
      else if m = "" ∨ m = "\n" then
        Client.handlerLoop rest s w1
      else
        match Client.msg w1 s m with
        | (w2, some e) => (w2, s, rest, Outcome.raised e)
        | (w2, none) => Client.handlerLoop rest s w2

/-- The join announcement broadcast at the end of naming (server.py 50). -/
def joinedMsg (name : String) : String :=
  "\x1b[32m" ++ name ++ " has joined\x1b[0m"

/-- `Client.join` (server.py 42-54): prompt for a name, recv it (stripped),
send the welcome to the new client only, broadcast the join announcement
(the new client is not yet registered, so it does not receive it), then
register the session in `self.parent.clients`. -/
def Client.join (evs : List Ev) (s : Sess) (w : World) : World × Sess × List Ev × Outcome :=
  match Client.send w s.id "Enter your name\n> " with
  | (w1, some e) => (w1, s, evs, Outcome.raised e)
  | (w1, none) =>
    match Client.recv evs s w1 with
    | (w2, rest, RecvRes.rBlocked) => (w2, s, rest, Outcome.blocked)
    | (w2, rest, RecvRes.rErr e) => (w2, s, rest, Outcome.raised e)
    | (w2, rest, RecvRes.got raw) =>
      let s1 := { s with name := pyStrip raw }
      match Client.send w2 s.id ("Hi " ++ s1.name ++ "! Type :quit to leave\n") with
      | (w3, some e) => (w3, s1, rest, Outcome.raised e)
      | (w3, none) =>
        match Server.broadcast w3 (joinedMsg s1.name) none with
        | (w4, some e) => (w4, s1, rest, Outcome.raised e)
        | (w4, none) =>
          ({ w4 with registry := w4.registry ++ [(s.id, s1.name)] }, s1, rest, Outcome.normal)

/-- `Client.handler` (server.py 80-94): join, set `self.chat`, send the
first prompt, then run the chat loop. -/
def Client.handler (evs : List Ev) (s : Sess) (w : World) : World × Sess × List Ev × Outcome :=
  match Client.join evs s w with
  | (w1, s1, evs1, Outcome.normal) =>
    let s2 := { s1 with chat := true }
    match Client.send w1 s2.id "" with
    | (w2, some e) => (w2, s2, evs1, Outcome.raised e)
    | (w2, none) => Client.handlerLoop evs1 s2 w2
  | r => r

/-- `Client.handle` (server.py 96-108): run the handler; a `socket.error`
with errno 32 (EPIPE, peer closed its socket) is recovered by
`leave(gone=True)`; errno 9 (socket already closed) is swallowed; every
other error — including any non-socket error such as `KeyError` — is
re-raised.  (`e.args` is always an errno tuple in this model.) -/
def Client.handle (evs : List Ev) (s : Sess) (w : World) : World × Sess × List Ev × Outcome :=
  match Client.handler evs s w with
  | (w1, s1, evs1, Outcome.raised (Err.sock n)) =>
    if n = 32 then
      match Client.leave w1 s1 true true with
      | ((w2, s2), some e) => (w2, s2, evs1, Outcome.raised e)
      | ((w2, s2), none) => (w2, s2, evs1, Outcome.normal)
    else if n = 9 then (w1, s1, evs1, Outcome.normal)
    else (w1, s1, evs1, Outcome.raised (Err.sock n))
  | r => r

/-- The shutdown notice broadcast by `Server.close_connections`. -/
def closingMsg : String := "Closing server..."

/-- The per-client sweep of `Server.close_connections` (server.py 179-180):
`leave(delete=False)` on every registered client, in registry order.
`leave` with `delete=False` never mutates the registry, so iterating the
initial snapshot is exact. -/
def leaveAllAux : List (Nat × String) → World → World × Option Err
  | [], w => (w, none)
  | (i, n) :: rest, w =>
    match Client.leave w ⟨i, n, true⟩ false false with
    | ((w1, _), some e) => (w1, some e)
    | ((w1, _), none) => leaveAllAux rest w1

/-- `Server.close_connections` (server.py 176-180): broadcast the shutdown
notice to every registered client, then make every registered client leave
without deleting its registry entry. -/
def Server.close_connections (w : World) : World × Option Err :=
  match Server.broadcast w closingMsg none with
  | (w1, some e) => (w1, some e)
  | (w1, none) => leaveAllAux w1.registry w1

/-- `Server.close` (server.py 182-185): release the listening socket. -/
def Server.close (w : World) : World :=
  { w with serverOpen := false }

/-- The shutdown path of `Server.start` (server.py 139-143) together with
the `self.close()` performed when the accept loop exits (server.py 167):
clear the running flag, disconnect all clients, release the listener. -/
def Server.shutdownSeq (w : World) : World × Option Err :=
  match Server.close_connections w with
  | (w1, r) => (Server.close w1, r)

/-- Modelled from the spec: `str.rstrip()`, trimming only trailing
whitespace — the transformation the spec claims `Client.msg` applies. -/
def pyRstrip (s : String) : String :=
  ⟨(s.data.reverse.dropWhile Char.isWhitespace).reverse⟩

/-- Modelled from the spec: the chat payload as the spec words it, the
message trimmed of trailing whitespace only (name colored as in §6). -/
def specPayloadTrailing (name m : String) : String :=
  "\x1b[36m" ++ name ++ "\x1b[0m: " ++ pyRstrip m

/- ------------------------------------------------------------------ -/
/- Helper lemmas                                                       -/
/- ------------------------------------------------------------------ -/

theorem send_ok {w : World} {i : Nat} (p : String) (h : i ∉ w.failing) :
    Client.send w i p = ({ w with log := w.log ++ [(i, p)] }, none) := by
  simp [Client.send, h]

theorem send_fail {w : World} {i : Nat} (p : String) (h : i ∈ w.failing) :
    Client.send w i p = (w, some (Err.sock 32)) := by
  simp [Client.send, h]

theorem mem_delivered_of_mem {m : String} {snd : Option Nat} :
    ∀ {l : List (Nat × String)} {p : Nat × String},
      p ∈ l → some p.1 ≠ snd → (p.1, m) ∈ delivered l snd m := by
  intro l
  induction l with
  | nil => intro p hp; cases hp
  | cons q rest ih =>
    intro p hp hne
    rcases List.mem_cons.mp hp with h | h
    · subst h
      simp [delivered, hne]
    · by_cases hq : some q.1 = snd
      · simpa [delivered, hq] using ih h hne
      · simp [delivered, hq]
        exact Or.inr (ih h hne)

theorem of_mem_delivered {m : String} {snd : Option Nat} :
    ∀ {l : List (Nat × String)} {e : Nat × String},
      e ∈ delivered l snd m → e.2 = m ∧ some e.1 ≠ snd ∧ e.1 ∈ l.map Prod.fst := by
  intro l
  induction l with
  | nil => intro e he; simp [delivered] at he
  | cons q rest ih =>
    intro e he
    by_cases hq : some q.1 = snd
    · rw [delivered, if_pos hq] at he
      obtain ⟨h1, h2, h3⟩ := ih he
      exact ⟨h1, h2, by simp [h3]⟩
    · rw [delivered, if_neg hq] at he
      rcases List.mem_cons.mp he with h | h
      · subst h; exact ⟨rfl, hq, by simp⟩
      · obtain ⟨h1, h2, h3⟩ := ih h
        exact ⟨h1, h2, by simp [h3]⟩

theorem broadcastList_eq {m : String} {snd : Option Nat} :
    ∀ (l : List (Nat × String)) (w : World),
      (∀ p ∈ l, some p.1 ≠ snd → p.1 ∉ w.failing) →
      broadcastList l m snd w = ({ w with log := w.log ++ delivered l snd m }, none) := by
  intro l
  induction l with
  | nil => intro w _; simp [broadcastList, delivered]
  | cons p rest ih =>
    intro w h
    by_cases hp : some p.1 = snd
    · rw [broadcastList, if_pos hp, delivered, if_pos hp]
      exact ih w (fun q hq => h q (List.mem_cons_of_mem _ hq))
    · have hf : p.1 ∉ w.failing := h p (List.mem_cons_self _ _) hp
      have step := ih { w with log := w.log ++ [(p.1, m)] }
        (fun q hq => h q (List.mem_cons_of_mem _ hq))
      rw [broadcastList, if_neg hp, send_ok _ hf, delivered, if_neg hp]
      simpa [List.append_assoc] using step

theorem broadcastList_fail {m : String} {snd : Option Nat} :
    ∀ (l1 : List (Nat × String)) (f : Nat × String) (l2 : List (Nat × String)) (w : World),
      (∀ p ∈ l1, some p.1 ≠ snd → p.1 ∉ w.failing) →
      f.1 ∈ w.failing → some f.1 ≠ snd →
      broadcastList (l1 ++ f :: l2) m snd w =
        ({ w with log := w.log ++ delivered l1 snd m }, some (Err.sock 32)) := by
  intro l1
  induction l1 with
  | nil =>
    intro f l2 w _ hf hne
    rw [List.nil_append, broadcastList, if_neg hne, send_fail _ hf]
    simp [delivered]
  | cons p rest ih =>
    intro f l2 w h hf hne
    by_cases hp : some p.1 = snd
    · rw [List.cons_append, broadcastList, if_pos hp, delivered, if_pos hp]
      exact ih f l2 w (fun q hq => h q (List.mem_cons_of_mem _ hq)) hf hne
    · have hpf : p.1 ∉ w.failing := h p (List.mem_cons_self _ _) hp
      have step := ih f l2 { w with log := w.log ++ [(p.1, m)] }
        (fun q hq => h q (List.mem_cons_of_mem _ hq)) hf hne
      rw [List.cons_append, broadcastList, if_neg hp, send_ok _ hpf, delivered, if_neg hp]
      simpa [List.append_assoc] using step

theorem broadcastList_log_extend :
    ∀ (l : List (Nat × String)) (m : String) (snd : Option Nat) (w : World),
      ∃ t, (broadcastList l m snd w).1.log = w.log ++ t := by
  intro l
  induction l with
  | nil => intro m snd w; exact ⟨[], by simp [broadcastList]⟩
  | cons p rest ih =>
    intro m snd w
    by_cases hp : some p.1 = snd
    · simpa [broadcastList, hp] using ih m snd w
    · by_cases hf : p.1 ∈ w.failing
      · exact ⟨[], by simp [broadcastList, hp, send_fail _ hf]⟩
      · obtain ⟨t, ht⟩ := ih m snd { w with log := w.log ++ [(p.1, m)] }
        refine ⟨(p.1, m) :: t, ?_⟩
        rw [broadcastList, if_neg hp, send_ok _ hf]
        simpa [List.append_assoc] using ht

/-- `Client.kill` in closed form: the socket close always happens; the
registry entry is erased when present, `KeyError` is raised when absent. -/
theorem kill_eq (w : World) (s : Sess) (d : Bool) :
    Client.kill w s d =
      (if d then
        (if w.registry.any (fun p => p.1 == s.id) then
          ({ w with registry := w.registry.eraseP (fun p => p.1 == s.id),
                    closedSocks := w.closedSocks ++ [s.id] }, none)
         else ({ w with closedSocks := w.closedSocks ++ [s.id] }, some Err.key))
       else ({ w with closedSocks := w.closedSocks ++ [s.id] }, none)) := by
  rw [Client.kill]
  cases d
  · simp
  · simp only [registryDel]
    by_cases h : w.registry.any (fun p => p.1 == s.id) <;> simp [h]

theorem kill_log (w : World) (s : Sess) (d : Bool) :
    (Client.kill w s d).1.log = w.log := by
  rw [kill_eq]
  cases d
  · simp
  · by_cases h : w.registry.any (fun p => p.1 == s.id) <;> simp [h]

theorem leave_log_extend (w : World) (s : Sess) (d g : Bool) :
    ∃ t, (Client.leave w s d g).1.1.log = w.log ++ t := by
  rw [Client.leave]
  by_cases hmain : g
  · simp only [hmain, if_pos]
    rcases hk : Client.kill w { s with chat := false } d with ⟨w2, e2⟩
    have hklog : w2.log = w.log := by
      have h2 := kill_log w { s with chat := false } d
      rw [hk] at h2; exact h2
    cases e2 with
    | some e => exact ⟨[], by simp [hk, hklog]⟩
    | none =>
      cases d with
      | false => exact ⟨[], by simp [hk, hklog]⟩
      | true =>
        obtain ⟨t, ht⟩ := broadcastList_log_extend w2.registry (leftMsg s.name) none w2
        rcases hb : broadcastList w2.registry (leftMsg s.name) none w2 with ⟨w3, e3⟩
        rw [hb] at ht
        simp only at ht
        have h3 : w3.log = w.log ++ t := by rw [ht, hklog]
        cases e3 with
        | some e => exact ⟨t, by simp [hk, Server.broadcast, hb, h3]⟩
        | none => exact ⟨t, by simp [hk, Server.broadcast, hb, h3]⟩
  · simp only [hmain, if_neg, Bool.false_eq_true, not_false_iff]
    by_cases hf : s.id ∈ w.failing
    · exact ⟨[], by simp [send_fail _ hf]⟩
    · rw [send_ok _ hf]
      rcases hk : Client.kill { w with log := w.log ++ [(s.id, byeMsg)] } { s with chat := false } d with ⟨w2, e2⟩
      have hklog : w2.log = w.log ++ [(s.id, byeMsg)] := by
        have h2 := kill_log { w with log := w.log ++ [(s.id, byeMsg)] } { s with chat := false } d
        rw [hk] at h2; exact h2
      cases e2 with
      | some e => exact ⟨[(s.id, byeMsg)], by simp [hk, hklog]⟩
      | none =>
        cases d with
        | false => exact ⟨[(s.id, byeMsg)], by simp [hk, hklog]⟩
        | true =>
          obtain ⟨t, ht⟩ := broadcastList_log_extend w2.registry (leftMsg s.name) none w2
          rcases hb : broadcastList w2.registry (leftMsg s.name) none w2 with ⟨w3, e3⟩
          rw [hb] at ht
          simp only at ht
          have h3 : w3.log = w.log ++ ((s.id, byeMsg) :: t) := by
            rw [ht, hklog]; simp
          cases e3 with
          | some e => exact ⟨(s.id, byeMsg) :: t, by simp [hk, Server.broadcast, hb, h3]⟩
          | none => exact ⟨(s.id, byeMsg) :: t, by simp [hk, Server.broadcast, hb, h3]⟩

/-- `Client.leave` with `delete=True` in closed form, when the leaver is
registered and no send fails: optional farewell, socket closed, registry
entry erased, departure announcement delivered to the remaining sessions. -/
theorem leave_delete_eq (w : World) (s : Sess) (gone : Bool)
    (hf : s.id ∉ w.failing)
    (hin : w.registry.any (fun p => p.1 == s.id) = true)
    (hall : ∀ p ∈ w.registry, p.1 ∉ w.failing) :
    Client.leave w s true gone =
      (({ w with
          registry := w.registry.eraseP (fun p => p.1 == s.id),
          log := (if gone then w.log else w.log ++ [(s.id, byeMsg)]) ++
                 delivered (w.registry.eraseP (fun p => p.1 == s.id)) none (leftMsg s.name),
          closedSocks := w.closedSocks ++ [s.id] },
        { s with chat := false }), none) := by
  have hsub : ∀ (fl : List Nat), fl = w.failing →
      ∀ p ∈ w.registry.eraseP (fun p => p.1 == s.id), some p.1 ≠ (none : Option Nat) → p.1 ∉ fl := by
    intro fl hfl p hp _
    rw [hfl]
    exact hall p ((List.eraseP_sublist w.registry).subset hp)
  cases gone with
  | true =>
    have h2 : Client.kill w { s with chat := false } true =
        ({ w with registry := w.registry.eraseP (fun p => p.1 == s.id),
                  closedSocks := w.closedSocks ++ [s.id] }, none) := by
      rw [kill_eq]; simp [hin]
    have h3 := @broadcastList_eq (leftMsg s.name) none
      (w.registry.eraseP (fun p => p.1 == s.id))
      { w with registry := w.registry.eraseP (fun p => p.1 == s.id),
               closedSocks := w.closedSocks ++ [s.id] }
      (hsub _ rfl)
    simp [Client.leave, h2, Server.broadcast, h3]
  | false =>
    have h1 : Client.send w s.id byeMsg = ({ w with log := w.log ++ [(s.id, byeMsg)] }, none) :=
      send_ok _ hf
    have h2 : Client.kill { w with log := w.log ++ [(s.id, byeMsg)] } { s with chat := false } true =
        ({ w with log := w.log ++ [(s.id, byeMsg)],
                  registry := w.registry.eraseP (fun p => p.1 == s.id),
                  closedSocks := w.closedSocks ++ [s.id] }, none) := by
      rw [kill_eq]; simp [hin]
    have h3 := @broadcastList_eq (leftMsg s.name) none
      (w.registry.eraseP (fun p => p.1 == s.id))
      { w with log := w.log ++ [(s.id, byeMsg)],
               registry := w.registry.eraseP (fun p => p.1 == s.id),
               closedSocks := w.closedSocks ++ [s.id] }
      (hsub _ rfl)
    simp [Client.leave, h1, h2, Server.broadcast, h3]

/-- `Client.leave` with `delete=False` (the shutdown sweep) in closed form:
farewell plus socket close; the registry is untouched. -/
theorem leave_nodelete_eq (w : World) (s : Sess) (hf : s.id ∉ w.failing) :
    Client.leave w s false false =
      (({ w with log := w.log ++ [(s.id, byeMsg)],
                 closedSocks := w.closedSocks ++ [s.id] }, { s with chat := false }), none) := by
  have h1 : Client.send w s.id byeMsg = ({ w with log := w.log ++ [(s.id, byeMsg)] }, none) :=
    send_ok _ hf
  simp [Client.leave, h1, kill_eq]

/-- The shutdown sweep in closed form when no send fails: every client gets
the farewell and its socket closed, in registry order; the registry itself
is untouched. -/
theorem leaveAllAux_eq :
    ∀ (l : List (Nat × String)) (w : World),
      (∀ p ∈ l, p.1 ∉ w.failing) →
      leaveAllAux l w =
        ({ w with log := w.log ++ l.map (fun p => (p.1, byeMsg)),
                  closedSocks := w.closedSocks ++ l.map Prod.fst }, none) := by
  intro l
  induction l with
  | nil => intro w _; simp [leaveAllAux]
  | cons p rest ih =>
    intro w h
    obtain ⟨i, nm⟩ := p
    have hf : i ∉ w.failing := h (i, nm) (List.mem_cons_self _ _)
    have step := ih { w with log := w.log ++ [(i, byeMsg)],
                             closedSocks := w.closedSocks ++ [i] }
      (fun q hq => h q (List.mem_cons_of_mem _ hq))
    rw [leaveAllAux, leave_nodelete_eq _ _ hf]
    simpa [List.append_assoc] using step

/-- Whatever happens inside the chat loop, the send log only grows. -/
theorem handlerLoop_log_extend :
    ∀ (evs : List Ev) (s : Sess) (w : World),
      ∃ t, (Client.handlerLoop evs s w).1.log = w.log ++ t := by
  intro evs
  induction evs with
  | nil => intro s w; exact ⟨[], by simp [Client.handlerLoop]⟩
  | cons ev rest ih =>
    intro s w
    cases ev with
    | errE n => exact ⟨[], by simp [Client.handlerLoop, Client.recv]⟩
    | line m =>
      have afterRecv : ∀ (w1 : World) (t0 : List (Nat × String)), w1.log = w.log ++ t0 →
          ∃ t, ((if strContains m ":quit" then
                  match Client.leave w1 s true false with
                  | ((w2, s2), some e) => (w2, s2, rest, Outcome.raised e)
                  | ((w2, s2), none) => (w2, s2, rest, Outcome.normal)
                else if m = "" ∨ m = "\n" then
                  Client.handlerLoop rest s w1
                else
                  match Client.msg w1 s m with
                  | (w2, some e) => (w2, s, rest, Outcome.raised e)
                  | (w2, none) => Client.handlerLoop rest s w2) : World × Sess × List Ev × Outcome).1.log
            = w.log ++ t := by
        intro w1 t0 ht0
        by_cases hq : strContains m ":quit"
        · obtain ⟨t, ht⟩ := leave_log_extend w1 s true false
          rcases hl : Client.leave w1 s true false with ⟨⟨w2, s2⟩, e2⟩
          rw [hl] at ht
          simp only at ht
          cases e2 with
          | some e => exact ⟨t0 ++ t, by simp [hq, hl, ht, ht0, List.append_assoc]⟩
          | none => exact ⟨t0 ++ t, by simp [hq, hl, ht, ht0, List.append_assoc]⟩
        · by_cases hm : m = "" ∨ m = "\n"
          · obtain ⟨t, ht⟩ := ih s w1
            exact ⟨t0 ++ t, by simp [hq, hm, ht, ht0, List.append_assoc]⟩
          · obtain ⟨t, ht⟩ := broadcastList_log_extend w1.registry (Client.msgPayload s.name m) (some s.id) w1
            rcases hb : broadcastList w1.registry (Client.msgPayload s.name m) (some s.id) w1 with ⟨w2, e2⟩
            rw [hb] at ht
            simp only at ht
            cases e2 with
            | some e =>
              exact ⟨t0 ++ t, by simp [hq, hm, Client.msg, Server.broadcast, hb, ht, ht0, List.append_assoc]⟩
            | none =>
              obtain ⟨t2, ht2⟩ := ih s w2
              refine ⟨t0 ++ t ++ t2, ?_⟩
              simp only [hq, hm, Client.msg, Server.broadcast, hb]
              simp [ht2, ht, ht0, List.append_assoc]
      by_cases hc : s.chat
      · by_cases hf : s.id ∈ w.failing
        · exact ⟨[], by simp [Client.handlerLoop, Client.recv, hc, send_fail _ hf]⟩
        · obtain ⟨t, ht⟩ := afterRecv { w with log := w.log ++ [(s.id, "")] } [(s.id, "")] rfl
          refine ⟨t, ?_⟩
          rw [Client.handlerLoop]
          simpa [Client.recv, hc, send_ok _ hf] using ht
      · obtain ⟨t, ht⟩ := afterRecv w [] (by simp)
        refine ⟨t, ?_⟩
        rw [Client.handlerLoop]
        simpa [Client.recv, hc] using ht

/-- `Client.recv` on a data event in chat mode: the prompt refresh (empty
payload to the same client) happens before the line is handed back. -/
theorem recv_line_eq (m : String) (evs : List Ev) (s : Sess) (w : World)
    (hchat : s.chat = true) (hf : s.id ∉ w.failing) :
    Client.recv (Ev.line m :: evs) s w =
      ({ w with log := w.log ++ [(s.id, "")] }, evs, RecvRes.got m) := by
  simp [Client.recv, hchat, send_ok _ hf]

/-- One iteration of the chat loop on an empty line or bare newline: only
the prompt refresh is sent, no broadcast, and the loop continues with the
session unchanged. -/
theorem handlerLoop_blank_step (m : String) (rest : List Ev) (s : Sess) (w : World)
    (hchat : s.chat = true) (hf : s.id ∉ w.failing) (hm : m = "" ∨ m = "\n") :
    Client.handlerLoop (Ev.line m :: rest) s w =
      Client.handlerLoop rest s { w with log := w.log ++ [(s.id, "")] } := by
  have hq : strContains m ":quit" = false := by
    rcases hm with h | h <;> subst h <;> decide
  rw [Client.handlerLoop, recv_line_eq m rest s w hchat hf]
  simp [hq, hm]

/-- One iteration of the chat loop on an ordinary chat line: prompt refresh,
then the chat payload is delivered to every other registered session, and
the loop continues with the session unchanged. -/
theorem handlerLoop_msg_step (m : String) (rest : List Ev) (s : Sess) (w : World)
    (hchat : s.chat = true) (hf : s.id ∉ w.failing)
    (hq : strContains m ":quit" = false) (h0 : ¬(m = "" ∨ m = "\n"))
    (hall : ∀ p ∈ w.registry, p.1 ≠ s.id → p.1 ∉ w.failing) :
    Client.handlerLoop (Ev.line m :: rest) s w =
      Client.handlerLoop rest s
        { w with log := (w.log ++ [(s.id, "")]) ++
            delivered w.registry (some s.id) (Client.msgPayload s.name m) } := by
  have hok2 : ∀ p ∈ w.registry, some p.1 ≠ some s.id →
      p.1 ∉ ({ w with log := w.log ++ [(s.id, "")] } : World).failing := by
    intro p hp hne
    exact hall p hp (fun h => hne (by rw [h]))
  have hb := @broadcastList_eq (Client.msgPayload s.name m) (some s.id)
    w.registry { w with log := w.log ++ [(s.id, "")] } hok2
  rw [Client.handlerLoop, recv_line_eq m rest s w hchat hf]
  simp [hq, h0, Client.msg, Server.broadcast, hb]

/-- After a data event in chat mode, the final log of the loop extends the
refreshed log: nothing that happens later erases the prompt refresh. -/
theorem handlerLoop_cons_line_log (m : String) (evs : List Ev) (s : Sess) (w : World)
    (hchat : s.chat = true) (hf : s.id ∉ w.failing) :
    ∃ t, (Client.handlerLoop (Ev.line m :: evs) s w).1.log = (w.log ++ [(s.id, "")]) ++ t := by
  rw [Client.handlerLoop, recv_line_eq m evs s w hchat hf]
  by_cases hq : strContains m ":quit"
  · obtain ⟨t, ht⟩ := leave_log_extend { w with log := w.log ++ [(s.id, "")] } s true false
    rcases hl : Client.leave { w with log := w.log ++ [(s.id, "")] } s true false with ⟨⟨w2, s2⟩, e2⟩
    rw [hl] at ht
    simp only at ht
    cases e2 with
    | some e => exact ⟨t, by simpa [hq, hl] using ht⟩
    | none => exact ⟨t, by simpa [hq, hl] using ht⟩
  · by_cases hm : m = "" ∨ m = "\n"
    · obtain ⟨t, ht⟩ := handlerLoop_log_extend evs s { w with log := w.log ++ [(s.id, "")] }
      exact ⟨t, by simpa [hq, hm] using ht⟩
    · obtain ⟨t, ht⟩ := broadcastList_log_extend
        ({ w with log := w.log ++ [(s.id, "")] } : World).registry
        (Client.msgPayload s.name m) (some s.id) { w with log := w.log ++ [(s.id, "")] }
      rcases hb : broadcastList ({ w with log := w.log ++ [(s.id, "")] } : World).registry
        (Client.msgPayload s.name m) (some s.id) { w with log := w.log ++ [(s.id, "")] }
        with ⟨w2, e2⟩
      rw [hb] at ht
      simp only at ht
      cases e2 with
      | some e =>
        exact ⟨t, by simp only [hq, hm, Client.msg, Server.broadcast] ; simpa [hb] using ht⟩
      | none =>
        obtain ⟨t2, ht2⟩ := handlerLoop_log_extend evs s w2
        refine ⟨t ++ t2, ?_⟩
        simp only [hq, hm, Client.msg, Server.broadcast]
        simp [hb, ht2, ht, List.append_assoc]

/-- `Client.join` registers the session (under its freshly stripped name)
exactly when it returns normally, and the session keeps its connection id. -/
theorem join_normal_registers (evs : List Ev) (s : Sess) (w : World)
    (w1 : World) (s1 : Sess) (evs1 : List Ev)
    (h : Client.join evs s w = (w1, s1, evs1, Outcome.normal)) :
    (s1.id, s1.name) ∈ w1.registry ∧ s1.id = s.id := by
  rw [Client.join] at h
  rcases h1 : Client.send w s.id "Enter your name\n> " with ⟨wa, ea⟩
  rw [h1] at h
  cases ea with
  | some e => simp at h
  | none =>
    simp only at h
    rcases h2 : Client.recv evs s wa with ⟨wb, restb, res⟩
    rw [h2] at h
    cases res with
    | rBlocked => simp at h
    | rErr e => simp at h
    | got raw =>
      simp only at h
      rcases h3 : Client.send wb s.id ("Hi " ++ pyStrip raw ++ "! Type :quit to leave\n")
        with ⟨wc, ec⟩
      rw [h3] at h
      cases ec with
      | some e => simp at h
      | none =>
        simp only at h
        rcases h4 : Server.broadcast wc (joinedMsg (pyStrip raw)) none with ⟨wd, ed⟩
        rw [h4] at h
        cases ed with
        | some e => simp at h
        | none =>
          simp only [Prod.mk.injEq] at h
          obtain ⟨hw, hs, _, _⟩ := h
          rw [← hw, ← hs]
          simp

/- ------------------------------------------------------------------ -/
/- Claim theorems                                                      -/
/- ------------------------------------------------------------------ -/

/-- Claim C1: for a broadcast with an excluded sender, every session
registered when the iteration begins receives the message except the
excluded sender, and no delivery of the broadcast is ever addressed to the
sender.  (Hypothesis: no intended recipient socket is failing; what a
failing recipient does to the others is the subject of C7.) -/
theorem broadcast_reaches_all_except_sender (w : World) (m : String) (sid : Nat)
    (hok : ∀ p ∈ w.registry, p.1 ≠ sid → p.1 ∉ w.failing) :
    (Server.broadcast w m (some sid)).2 = none ∧
    (∀ p ∈ w.registry, p.1 ≠ sid → (p.1, m) ∈ (Server.broadcast w m (some sid)).1.log) ∧
    (∀ e ∈ (Server.broadcast w m (some sid)).1.log, e ∈ w.log ∨ e.1 ≠ sid) := by
  have hok2 : ∀ p ∈ w.registry, some p.1 ≠ some sid → p.1 ∉ w.failing := by
    intro p hp hne
    exact hok p hp (fun hh => hne (by rw [hh]))
  have hb := @broadcastList_eq m (some sid) w.registry w hok2
  rw [Server.broadcast, hb]
  refine ⟨rfl, ?_, ?_⟩
  · intro p hp hne
    simp only [List.mem_append]
    exact Or.inr (mem_delivered_of_mem hp (fun hh => hne (Option.some.inj hh)))
  · intro e he
    simp only [List.mem_append] at he
    rcases he with hh | hh
    · exact Or.inl hh
    · obtain ⟨_, hne, _⟩ := of_mem_delivered hh
      exact Or.inr (fun heq => hne (by rw [heq]))

/-- Claim C1 witness: in a registry holding ids 0 and 1, a broadcast
excluding sender 1 delivers the message to 0. -/
theorem broadcast_reaches_all_except_sender_witness :
    ((0 : Nat), "hi") ∈
      (Server.broadcast ⟨[(0, "A"), (1, "B")], [], [], [], true⟩ "hi" (some 1)).1.log :=
  (broadcast_reaches_all_except_sender ⟨[(0, "A"), (1, "B")], [], [], [], true⟩ "hi" 1
    (by decide)).2.1 (0, "A") (by decide) (by decide)

/-- Claim C2 counterexample: a joined session (id 7, name Bob) whose next
read raises an unexpected-class socket error (errno 104) terminates its
handling routine with the error propagating, and its Registry entry is NOT
removed — the claimed cleanup on the unexpected-error path does not exist. -/
theorem registry_error_path_no_cleanup_cex :
    (Client.handle [Ev.line "Bob", Ev.errE 104] ⟨7, "", false⟩
        ⟨[], [], [], [], true⟩).2.2.2 = Outcome.raised (Err.sock 104) ∧
    (7, "Bob") ∈
      (Client.handle [Ev.line "Bob", Ev.errE 104] ⟨7, "", false⟩
        ⟨[], [], [], [], true⟩).1.registry := by
  decide

/-- Claim C2 (amended): a session is added to the Registry exactly when it
completes the naming phase; but when an unexpected-class socket error
(errno not 32 and not 9) terminates the handling routine, the error path
performs no Registry cleanup at all — `handle` returns the handler state
unchanged, so a registered session stays registered. -/
theorem registry_error_path_no_cleanup (evs : List Ev) (s : Sess) (w : World) (n : Nat)
    (h : (Client.handler evs s w).2.2.2 = Outcome.raised (Err.sock n))
    (h32 : n ≠ 32) (h9 : n ≠ 9) :
    Client.handle evs s w = Client.handler evs s w ∧
    (∀ (evs2 : List Ev) (s2 : Sess) (w2 w3 : World) (s3 : Sess) (evs3 : List Ev),
      Client.join evs2 s2 w2 = (w3, s3, evs3, Outcome.normal) →
      (s3.id, s3.name) ∈ w3.registry) := by
  constructor
  · rcases e : Client.handler evs s w with ⟨w1, s1, evs1, out⟩
    rw [e] at h
    simp only at h
    subst h
    rw [Client.handle, e]
    simp [h32, h9]
  · intro evs2 s2 w2 w3 s3 evs3 hj
    exact (join_normal_registers evs2 s2 w2 w3 s3 evs3 hj).1

/-- Claim C2 witness: the amended no-cleanup statement applied to the
errno-104 scenario. -/
theorem registry_error_path_no_cleanup_witness :
    Client.handle [Ev.line "Ann", Ev.errE 113] ⟨8, "", false⟩ ⟨[], [], [], [], true⟩ =
      Client.handler [Ev.line "Ann", Ev.errE 113] ⟨8, "", false⟩ ⟨[], [], [], [], true⟩ :=
  (registry_error_path_no_cleanup [Ev.line "Ann", Ev.errE 113] ⟨8, "", false⟩
    ⟨[], [], [], [], true⟩ 113 (by decide) (by decide) (by decide)).1

/-- Claim C3: a chatting session that receives a line containing the
substring `:quit` gets the farewell line, is erased from the Registry, the
departure announcement is delivered to every session remaining in the
Registry, the socket is closed exactly once, and the loop returns normally
without consuming any further input (no second read on the connection). -/
theorem quit_line_closes_session (m : String) (rest : List Ev) (s : Sess) (w : World)
    (hchat : s.chat = true)
    (hq : strContains m ":quit" = true)
    (hf : s.id ∉ w.failing)
    (hin : w.registry.any (fun p => p.1 == s.id) = true)
    (hall : ∀ p ∈ w.registry, p.1 ∉ w.failing) :
    Client.handlerLoop (Ev.line m :: rest) s w =
      ({ w with
         registry := w.registry.eraseP (fun p => p.1 == s.id),
         log := ((w.log ++ [(s.id, "")]) ++ [(s.id, byeMsg)]) ++
                delivered (w.registry.eraseP (fun p => p.1 == s.id)) none (leftMsg s.name),
         closedSocks := w.closedSocks ++ [s.id] },
       { s with chat := false }, rest, Outcome.normal) ∧
    (s.id, byeMsg) ∈ (Client.handlerLoop (Ev.line m :: rest) s w).1.log ∧
    (∀ p ∈ w.registry.eraseP (fun p => p.1 == s.id),
      (p.1, leftMsg s.name) ∈ (Client.handlerLoop (Ev.line m :: rest) s w).1.log) := by
  have heq : Client.handlerLoop (Ev.line m :: rest) s w =
      ({ w with
         registry := w.registry.eraseP (fun p => p.1 == s.id),
         log := ((w.log ++ [(s.id, "")]) ++ [(s.id, byeMsg)]) ++
                delivered (w.registry.eraseP (fun p => p.1 == s.id)) none (leftMsg s.name),
         closedSocks := w.closedSocks ++ [s.id] },
       { s with chat := false }, rest, Outcome.normal) := by
    rw [Client.handlerLoop, recv_line_eq m rest s w hchat hf]
    have hl := leave_delete_eq { w with log := w.log ++ [(s.id, "")] } s false hf hin hall
    simp only [hq, if_true]
    simp [hl]
  refine ⟨heq, ?_, ?_⟩
  · rw [heq]
    simp
  · intro p hp
    rw [heq]
    simp only [List.mem_append]
    exact Or.inr (mem_delivered_of_mem hp (by simp))

/-- Claim C3 witness: client 1 (A) quits in a two-client registry; the
remaining client 2 receives the departure announcement. -/
theorem quit_line_closes_session_witness :
    ((2 : Nat), leftMsg "A") ∈
      (Client.handlerLoop [Ev.line "please :quit", Ev.line "later"] ⟨1, "A", true⟩
        ⟨[(1, "A"), (2, "B")], [], [], [], true⟩).1.log :=
  (quit_line_closes_session "please :quit" [Ev.line "later"] ⟨1, "A", true⟩
    ⟨[(1, "A"), (2, "B")], [], [], [], true⟩ rfl (by decide) (by decide) (by decide)
    (by decide)).2.2 (2, "B") (by decide)

/-- Claim C4 counterexample: a whitespace-only line (a single space, which
is neither the empty string nor a bare newline) DOES produce a broadcast:
the other registered client receives the payload with an empty message. -/
theorem blank_line_no_broadcast_cex :
    (2, "\x1b[36mA\x1b[0m: ") ∈
      (Client.handlerLoop [Ev.line " "] ⟨1, "A", true⟩
        ⟨[(1, "A"), (2, "B")], [], [], [], true⟩).1.log := by
  decide

/-- Claim C4 (amended): only a line that is exactly empty or exactly a bare
newline is ignored — no broadcast, session unchanged, loop continues (the
only send is the prompt refresh to the session itself).  Any other
whitespace-only line is broadcast as `"<name>: "` with the message stripped
to empty; in both cases the session stays in the chatting loop unchanged. -/
theorem blank_line_behavior (m : String) (rest : List Ev) (s : Sess) (w : World)
    (hchat : s.chat = true) (hf : s.id ∉ w.failing) :
    ((m = "" ∨ m = "\n") →
      Client.handlerLoop (Ev.line m :: rest) s w =
        Client.handlerLoop rest s { w with log := w.log ++ [(s.id, "")] }) ∧
    (pyStrip m = "" → ¬(m = "" ∨ m = "\n") → strContains m ":quit" = false →
      (∀ p ∈ w.registry, p.1 ≠ s.id → p.1 ∉ w.failing) →
      Client.handlerLoop (Ev.line m :: rest) s w =
        Client.handlerLoop rest s
          { w with log := (w.log ++ [(s.id, "")]) ++
              delivered w.registry (some s.id) ("\x1b[36m" ++ s.name ++ "\x1b[0m: ") }) := by
  constructor
  · intro hm
    exact handlerLoop_blank_step m rest s w hchat hf hm
  · intro hst hm hq hall
    have hp : Client.msgPayload s.name m = "\x1b[36m" ++ s.name ++ "\x1b[0m: " := by
      rw [Client.msgPayload, hst]
      simp
    have := handlerLoop_msg_step m rest s w hchat hf hq hm hall
    rw [hp] at this
    exact this

/-- Claim C4 witness: the empty line is ignored — the loop continues with
only the prompt refresh logged. -/
theorem blank_line_behavior_witness :
    Client.handlerLoop [Ev.line ""] ⟨1, "A", true⟩ ⟨[(1, "A"), (2, "B")], [], [], [], true⟩ =
      Client.handlerLoop [] ⟨1, "A", true⟩ ⟨[(1, "A"), (2, "B")], [(1, "")], [], [], true⟩ :=
  (blank_line_behavior "" [] ⟨1, "A", true⟩ ⟨[(1, "A"), (2, "B")], [], [], [], true⟩ rfl
    (by decide)).1 (Or.inl rfl)

/-- Claim C5 counterexample: the chat payload is NOT the message trimmed of
trailing whitespace only — `Client.msg` strips leading whitespace too, so
on `"  hello  "` the source payload differs from the spec-worded payload. -/
theorem chat_payload_trailing_trim_cex :
    Client.msgPayload "Alice" "  hello  " ≠ specPayloadTrailing "Alice" "  hello  " := by
  decide

/-- Claim C5 (amended): the broadcast payload is `"<name>: <message>"` with
the message stripped of BOTH leading and trailing whitespace (and the name
wrapped in color codes).  A joined client named Alice sending
`"  hello  "` results in every other registered client receiving the chat
payload whose visible text is exactly `"Alice: hello"`. -/
theorem chat_roundtrip_trimmed (rest : List Ev) (s : Sess) (w : World)
    (hname : s.name = "Alice") (hchat : s.chat = true) (hf : s.id ∉ w.failing)
    (hall : ∀ p ∈ w.registry, p.1 ≠ s.id → p.1 ∉ w.failing) :
    (∀ p ∈ w.registry, p.1 ≠ s.id →
      (p.1, Client.msgPayload "Alice" "  hello  ") ∈
        (Client.handlerLoop (Ev.line "  hello  " :: rest) s w).1.log) ∧
    stripAnsi (Client.msgPayload "Alice" "  hello  ") = "Alice: hello" ∧
    Client.msgPayload "Alice" "  hello  " = Client.msgPayload "Alice" "hello" := by
  refine ⟨?_, by decide, by decide⟩
  intro p hp hne
  have hstep := handlerLoop_msg_step "  hello  " rest s w hchat hf (by decide) (by decide) hall
  rw [hstep, hname]
  obtain ⟨t, ht⟩ := handlerLoop_log_extend rest s
    { w with log := (w.log ++ [(s.id, "")]) ++
        delivered w.registry (some s.id) (Client.msgPayload "Alice" "  hello  ") }
  rw [ht]
  simp only [List.mem_append]
  refine Or.inl (Or.inr ?_)
  exact mem_delivered_of_mem hp (fun hh => hne (Option.some.inj hh))

/-- Claim C5 witness: with Alice (id 1) and a second client (id 2), the
second client receives the `"  hello  "` round-trip payload. -/
theorem chat_roundtrip_trimmed_witness :
    ((2 : Nat), Client.msgPayload "Alice" "  hello  ") ∈
      (Client.handlerLoop [Ev.line "  hello  "] ⟨1, "Alice", true⟩
        ⟨[(1, "Alice"), (2, "B")], [], [], [], true⟩).1.log :=
  (chat_roundtrip_trimmed [] ⟨1, "Alice", true⟩ ⟨[(1, "Alice"), (2, "B")], [], [], [], true⟩
    rfl rfl (by decide) (by decide)).1 (2, "B") (by decide) (by decide)

/-- Claim C6 counterexample: killing (with delete) a session whose id 0 is
not in the Registry raises `KeyError` — deregistering an absent session is
NOT a failure-free no-op. -/
theorem deregister_absent_noop_cex :
    (Client.kill ⟨[(1, "B")], [], [], [], true⟩ ⟨0, "A", false⟩ true).2 = some Err.key ∧
    (Client.kill ⟨[(1, "B")], [], [], [], true⟩ ⟨0, "A", false⟩ true).1.registry = [(1, "B")] := by
  decide

/-- Claim C6 (amended): deleting an absent session raises `KeyError` (the
Registry itself is left unchanged); the shutdown path avoids the raise only
because it calls `kill` with `delete=False`, which skips deregistration
entirely and also leaves the Registry unchanged. -/
theorem deregister_absent_raises (w : World) (s : Sess)
    (h : w.registry.any (fun p => p.1 == s.id) = false) :
    Client.kill w s true = ({ w with closedSocks := w.closedSocks ++ [s.id] }, some Err.key) ∧
    Client.kill w s false = ({ w with closedSocks := w.closedSocks ++ [s.id] }, none) := by
  constructor
  · rw [kill_eq]
    simp [h]
  · rw [kill_eq]
    simp

/-- Claim C6 witness: the amended statement at a concrete absent id. -/
theorem deregister_absent_raises_witness :
    Client.kill ⟨[(9, "Z")], [], [], [], true⟩ ⟨5, "Q", false⟩ true =
      (⟨[(9, "Z")], [], [], [5], true⟩, some Err.key) :=
  (deregister_absent_raises ⟨[(9, "Z")], [], [], [], true⟩ ⟨5, "Q", false⟩ (by decide)).1

/-- Claim C7 counterexample: with registry `[0 (failing), 1]` and no
excluded sender, the failure sending to client 0 aborts the whole
broadcast, so the healthy registered client 1 never receives the message —
delivery is NOT independent per recipient. -/
theorem broadcast_delivery_independent_cex :
    (1, "B") ∈ (⟨[(0, "A"), (1, "B")], [], [0], [], true⟩ : World).registry ∧
    (1 : Nat) ∉ (⟨[(0, "A"), (1, "B")], [], [0], [], true⟩ : World).failing ∧
    ((1 : Nat), "m") ∉
      (Server.broadcast ⟨[(0, "A"), (1, "B")], [], [0], [], true⟩ "m" none).1.log := by
  decide

/-- Claim C7 (amended): the broadcast loop is sequential and aborts at the
first failed send: recipients iterated before the failing one receive the
message, the send failure propagates out of the broadcast, and recipients
after the failing one receive nothing. -/
theorem broadcast_aborts_at_first_failure (l1 l2 : List (Nat × String)) (f : Nat × String)
    (m : String) (snd : Option Nat) (w : World)
    (hreg : w.registry = l1 ++ f :: l2)
    (h1 : ∀ p ∈ l1, some p.1 ≠ snd → p.1 ∉ w.failing)
    (hf : f.1 ∈ w.failing) (hfs : some f.1 ≠ snd) :
    Server.broadcast w m snd =
      ({ w with log := w.log ++ delivered l1 snd m }, some (Err.sock 32)) ∧
    (∀ p ∈ l1, some p.1 ≠ snd → (p.1, m) ∈ (Server.broadcast w m snd).1.log) ∧
    (∀ q ∈ l2, q.1 ∉ l1.map Prod.fst → (q.1, m) ∉ w.log →
      (q.1, m) ∉ (Server.broadcast w m snd).1.log) := by
  have hb : Server.broadcast w m snd =
      ({ w with log := w.log ++ delivered l1 snd m }, some (Err.sock 32)) := by
    conv_lhs => rw [Server.broadcast, hreg]
    exact broadcastList_fail l1 f l2 w h1 hf hfs
  refine ⟨hb, ?_, ?_⟩
  · intro p hp hne
    rw [hb]
    simp only [List.mem_append]
    exact Or.inr (mem_delivered_of_mem hp hne)
  · intro q hq hnotin hnlog
    rw [hb]
    simp only [List.mem_append]
    rintro (hh | hh)
    · exact hnlog hh
    · exact hnotin (of_mem_delivered hh).2.2

/-- Claim C7 witness: recipient 2 (before the failing client 0) still
receives the message of the aborted broadcast. -/
theorem broadcast_aborts_at_first_failure_witness :
    ((2 : Nat), "m") ∈
      (Server.broadcast ⟨[(2, "C"), (0, "A"), (1, "B")], [], [0], [], true⟩ "m" none).1.log :=
  (broadcast_aborts_at_first_failure [(2, "C")] [(1, "B")] (0, "A") "m" none
    ⟨[(2, "C"), (0, "A"), (1, "B")], [], [0], [], true⟩ rfl (by decide) (by decide)
    (by decide)).2.1 (2, "C") (by decide) (by decide)

/-- Claim C8 counterexample: a joined session (id 3) whose read raises a
connection-reset error (errno 104) — a peer-closed manifestation the spec
classifies as disconnect-class — does NOT transition to leaving/closed: the
error propagates out of the handling routine, the socket is never closed,
and the session even stays registered. -/
theorem disconnect_reset_propagates_cex :
    (Client.handle [Ev.line "Carol", Ev.errE 104] ⟨3, "", false⟩
        ⟨[], [], [], [], true⟩).2.2.2 = Outcome.raised (Err.sock 104) ∧
    (3 : Nat) ∉ (Client.handle [Ev.line "Carol", Ev.errE 104] ⟨3, "", false⟩
        ⟨[], [], [], [], true⟩).1.closedSocks := by
  decide

/-- Claim C8 (amended): only a broken-pipe disconnect (errno 32) raised in
the handling routine is recovered locally: the wrapper then leaves via the
gone path — no error propagates to the caller (outcome is normal), the
socket is closed and the Registry entry is erased.  Other disconnect-class
errnos (e.g. connection reset, 104) are re-raised instead. -/
theorem disconnect_epipe_recovered (evs : List Ev) (s : Sess) (w : World)
    (hh : (Client.handler evs s w).2.2.2 = Outcome.raised (Err.sock 32))
    (hf : (Client.handler evs s w).2.1.id ∉ (Client.handler evs s w).1.failing)
    (hin : (Client.handler evs s w).1.registry.any
      (fun p => p.1 == (Client.handler evs s w).2.1.id) = true)
    (hall : ∀ p ∈ (Client.handler evs s w).1.registry,
      p.1 ∉ (Client.handler evs s w).1.failing) :
    (Client.handle evs s w).2.2.2 = Outcome.normal ∧
    (Client.handle evs s w).1.closedSocks =
      (Client.handler evs s w).1.closedSocks ++ [(Client.handler evs s w).2.1.id] ∧
    (Client.handle evs s w).1.registry =
      (Client.handler evs s w).1.registry.eraseP
        (fun p => p.1 == (Client.handler evs s w).2.1.id) := by
  rcases e : Client.handler evs s w with ⟨w1, s1, evs1, out⟩
  rw [e] at hh hf hin hall
  simp only at hh hf hin hall
  subst hh
  have hl := leave_delete_eq w1 s1 true hf hin hall
  rw [Client.handle, e]
  simp [hl]

/-- Claim C8 witness: a session that joins as Eve and then hits a
broken-pipe read error is recovered without propagation. -/
theorem disconnect_epipe_recovered_witness :
    (Client.handle [Ev.line "Eve", Ev.errE 32] ⟨5, "", false⟩
        ⟨[], [], [], [], true⟩).2.2.2 = Outcome.normal :=
  (disconnect_epipe_recovered [Ev.line "Eve", Ev.errE 32] ⟨5, "", false⟩
    ⟨[], [], [], [], true⟩ (by decide) (by decide) (by decide) (by decide)).1

/-- Claim C9: shutting down with clients registered broadcasts the closing
notice to every registered session, makes every registered session leave
WITHOUT removing it from the Registry (each gets the farewell and its
socket is closed), and releases the listening socket. -/
theorem shutdown_closes_everything (w : World)
    (hall : ∀ p ∈ w.registry, p.1 ∉ w.failing) :
    (Server.shutdownSeq w).2 = none ∧
    (Server.shutdownSeq w).1.registry = w.registry ∧
    (Server.shutdownSeq w).1.serverOpen = false ∧
    (∀ p ∈ w.registry, (p.1, closingMsg) ∈ (Server.shutdownSeq w).1.log) ∧
    (∀ p ∈ w.registry, (p.1, byeMsg) ∈ (Server.shutdownSeq w).1.log) ∧
    (∀ p ∈ w.registry, p.1 ∈ (Server.shutdownSeq w).1.closedSocks) := by
  have hok : ∀ p ∈ w.registry, some p.1 ≠ (none : Option Nat) → p.1 ∉ w.failing :=
    fun p hp _ => hall p hp
  have hb := @broadcastList_eq closingMsg none w.registry w hok
  have hla := leaveAllAux_eq w.registry
    { w with log := w.log ++ delivered w.registry none closingMsg } (fun p hp => hall p hp)
  have heq : Server.shutdownSeq w =
      ({ w with
         log := (w.log ++ delivered w.registry none closingMsg) ++
                w.registry.map (fun p => (p.1, byeMsg)),
         closedSocks := w.closedSocks ++ w.registry.map Prod.fst,
         serverOpen := false }, none) := by
    rw [Server.shutdownSeq, Server.close_connections, Server.broadcast, hb]
    simp [hla, Server.close]
  refine ⟨by rw [heq], by rw [heq], by rw [heq], ?_, ?_, ?_⟩
  · intro p hp
    rw [heq]
    simp only [List.mem_append]
    exact Or.inl (Or.inr (mem_delivered_of_mem hp (by simp)))
  · intro p hp
    rw [heq]
    simp only [List.mem_append]
    exact Or.inr (List.mem_map_of_mem _ hp)
  · intro p hp
    rw [heq]
    simp only [List.mem_append]
    exact Or.inr (List.mem_map_of_mem _ hp)

/-- Claim C9 witness: with two registered clients, client 1 receives the
closing notice during shutdown. -/
theorem shutdown_closes_everything_witness :
    ((1 : Nat), closingMsg) ∈
      (Server.shutdownSeq ⟨[(1, "A"), (2, "B")], [], [], [], true⟩).1.log :=
  (shutdown_closes_everything ⟨[(1, "A"), (2, "B")], [], [], [], true⟩
    (by decide)).2.2.2.1 (1, "A") (by decide)

/-- Claim C10: on every line received in the chatting state the server
immediately sends the same client the prompt refresh — the empty payload —
before the line is processed (the refresh is the first new log entry, and
everything the processing adds comes after it); the wire bytes of that
refresh are exactly the line-erase sequence, carriage return and colored
prompt glyph, with no newline. -/
theorem chat_prompt_refresh_before_processing (m : String) (evs : List Ev) (s : Sess)
    (w : World) (hchat : s.chat = true) (hf : s.id ∉ w.failing) :
    Client.recv (Ev.line m :: evs) s w =
      ({ w with log := w.log ++ [(s.id, "")] }, evs, RecvRes.got m) ∧
    (∃ t, (Client.handlerLoop (Ev.line m :: evs) s w).1.log = (w.log ++ [(s.id, "")]) ++ t) ∧
    Client.sendBytes true "" = "\x1b[1K\r\x1b[33m>\x1b[0m " ∧
    '\n' ∉ (Client.sendBytes true "").data :=
  ⟨recv_line_eq m evs s w hchat hf, handlerLoop_cons_line_log m evs s w hchat hf,
    by decide, by decide⟩

/-- Claim C10 witness: the refresh at a concrete chatting session. -/
theorem chat_prompt_refresh_before_processing_witness :
    Client.recv [Ev.line "hi there"] ⟨4, "D", true⟩ ⟨[], [], [], [], true⟩ =
      (⟨[], [(4, "")], [], [], true⟩, [], RecvRes.got "hi there") :=
  (chat_prompt_refresh_before_processing "hi there" [] ⟨4, "D", true⟩
    ⟨[], [], [], [], true⟩ rfl (by decide)).1
